import Mathlib

/-!
Shallow embedding of the blog application (`src/app.py`, `src/config.py`):
a Flask app with three SQLAlchemy models (`User`, `Role`, `Blog`), two
WTForms forms (`RegistrationForm`, `BlogForm`) and four routes
(`/register`, `/dashboard`, `/blog/new`, `/blog/<int:blog_id>`).

The persistent relational store is modelled as `DB`: lists of rows plus the
autoincrement counters for the two primary keys.  The configured store
(`config.py`: `SQLALCHEMY_DATABASE_URI` defaults to `sqlite:///blog.db`)
enforces UNIQUE and NOT NULL constraints but, being SQLite, does not
enforce the declared VARCHAR lengths; the embedding mirrors that.
An authenticated session is modelled as `Option Nat`: `some uid` when
`flask_login` has loaded `current_user` with primary key `uid`, `none` for
an unauthenticated request; `@login_required` redirects to login in the
`none` case before the handler body runs.
-/

/-- Row of the `user` table (`class User` in `src/app.py`): integer primary
key, unique non-null `email`, non-null `password` (stored exactly as the
column value handed to the ORM — `create_user` performs no hashing),
`active` with column default `True`, and unique non-null `fs_uniquifier`. -/
structure User where
  id : Nat
  email : String
  password : String
  active : Bool
  fs_uniquifier : String
deriving Repr, DecidableEq

/-- Row of the `role` table (`class Role` in `src/app.py`): integer primary
key, unique `name`, `description`.  No route ever creates or assigns
roles. -/
structure Role where
  id : Nat
  name : String
  description : String
deriving Repr, DecidableEq

/-- Row of the `blog` table (`class Blog` in `src/app.py`): integer primary
key, non-null `title` (column declared `String(100)`), non-null `content`
(`Text`), `date_posted` defaulted to the creation instant (timestamps are
abstracted to `Nat`), and non-null foreign key `author_id` into `user`. -/
structure Blog where
  id : Nat
  title : String
  content : String
  date_posted : Nat
  author_id : Nat
deriving Repr, DecidableEq

/-- The persistent state behind `db = SQLAlchemy(app)`: the three tables
plus the autoincrement counters for `user.id` and `blog.id` (SQLite
autoincrement starts at 1).  The `roles_users` association table is always
empty in every flow, so `roles` suffices. -/
structure DB where
  users : List User
  roles : List Role
  blogs : List Blog
  nextUserId : Nat
  nextBlogId : Nat
deriving Repr, DecidableEq

/-- The freshly-created store after `db.create_all()`: all tables empty. -/
def initDB : DB :=
  { users := [], roles := [], blogs := [], nextUserId := 1, nextBlogId := 1 }

/-- Whitespace as stripped by Python's `str.strip()` (the characters that
occur in form input). -/
def isSpace (c : Char) : Bool :=
  c == ' ' || c == '\t' || c == '\n' || c == '\r'

/-- The `DataRequired()` validator of WTForms: fails on a missing value or
a string that is empty after stripping whitespace — i.e. it passes exactly
when some character is not whitespace. -/
def dataRequired (s : String) : Bool :=
  !(s.data.all isSpace)

/-- Split a character list at every occurrence of the separator `c`
(mirroring Python's `str.split(c)`). -/
def splitOnChar (c : Char) : List Char → List (List Char)
  | [] => [[]]
  | x :: xs =>
    match splitOnChar c xs with
    | [] => if x == c then [[], []] else [[x]]
    | y :: ys => if x == c then [] :: y :: ys else (x :: y) :: ys

/-- Modelled from the spec: the `Email()` validator attached to the
registration form is library code (wtforms / email_validator) not present
in this repository; the spec calls it an "email-shaped" format check.  It
is modelled as: exactly one `@` separating a non-empty local part from a
domain that has at least two non-empty dot-separated labels. -/
def emailShaped (s : String) : Bool :=
  match splitOnChar '@' s.data with
  | [loc, domain] =>
    !loc.isEmpty &&
      decide (2 ≤ (splitOnChar '.' domain).length) &&
      (splitOnChar '.' domain).all (fun p => !p.isEmpty)
  | _ => false

/-- Submitted data of `RegistrationForm`: `email` (`DataRequired`,
`Email`), `password` (`DataRequired`), `confirm_password` (`DataRequired`,
`EqualTo('password')`). -/
structure RegistrationForm where
  email : String
  password : String
  confirm_password : String
deriving Repr, DecidableEq

/-- `form.validate_on_submit()` for `RegistrationForm` on a submitted
request: every field validator passes, including the
`EqualTo('password')` cross-field check on `confirm_password`. -/
def RegistrationForm.validate (f : RegistrationForm) : Bool :=
  dataRequired f.email && emailShaped f.email &&
    dataRequired f.password &&
    dataRequired f.confirm_password && (f.confirm_password == f.password)

/-- Submitted data of `BlogForm`: `title` (`DataRequired`) and `content`
(`DataRequired`).  No length validator is attached to either field. -/
structure BlogForm where
  title : String
  content : String
deriving Repr, DecidableEq

/-- `form.validate_on_submit()` for `BlogForm` on a submitted request. -/
def BlogForm.validate (f : BlogForm) : Bool :=
  dataRequired f.title && dataRequired f.content

/-- `user_datastore.create_user(email=..., password=..., fs_uniquifier=...)`
as called by the `register` route: it constructs a pending `User` row with
exactly the given column values — the `password` argument is stored as
passed, with no hashing applied — `active` takes its column default `True`
and `id` the next autoincrement value. -/
def create_user (db : DB) (email password fs_uniquifier : String) : User :=
  { id := db.nextUserId, email := email, password := password,
    active := true, fs_uniquifier := fs_uniquifier }

/-- `db.session.commit()` with the single pending `User` row `u`: the store
checks the UNIQUE constraints on `user.email` and `user.fs_uniquifier`;
on a violation the commit raises `IntegrityError` and persists nothing
(`none`), otherwise the row is persisted and the autoincrement counter
advances. -/
def commitUser (db : DB) (u : User) : Option DB :=
  if db.users.any (fun a => a.email == u.email || a.fs_uniquifier == u.fs_uniquifier)
  then none
  else some { db with users := db.users ++ [u], nextUserId := db.nextUserId + 1 }

/-- Outcome of the `register` route.  `renderForm` is the re-render of
`register.html` with field errors when validation fails;
`redirectDashboard` is the success redirect; `integrityError` is the
unhandled `IntegrityError` escaping `db.session.commit()` — the route body
wraps the commit in no try/except, so a uniqueness violation propagates as
a server error rather than reaching the form. -/
inductive RegisterResult where
  | renderForm
  | redirectDashboard
  | integrityError
deriving Repr, DecidableEq

/-- The `register` route (`src/app.py`, lines 84–92): on a valid submission
it calls `create_user` with `email=form.email.data`,
`password=form.password.data`, `fs_uniquifier=form.email.data` and commits;
on success it redirects to `dashboard`; otherwise it re-renders the form. -/
def register (db : DB) (form : RegistrationForm) : DB × RegisterResult :=
  if form.validate then
    match commitUser db (create_user db form.email form.password form.email) with
    | none => (db, .integrityError)
    | some db2 => (db2, .redirectDashboard)
  else
    (db, .renderForm)

/-- Outcome of the `dashboard` route: `@login_required` redirects an
unauthenticated request to login; otherwise `blog_list.html` renders. -/
inductive DashboardResult where
  | redirectLogin
  | renderBlogList
deriving Repr, DecidableEq

/-- The `dashboard` route (`src/app.py`, lines 79–82): protected by
`@login_required`; renders the listing template and touches no state. -/
def dashboard (db : DB) (current_user : Option Nat) : DB × DashboardResult :=
  match current_user with
  | none => (db, .redirectLogin)
  | some _ => (db, .renderBlogList)

/-- Outcome of the `new_blog` route. -/
inductive NewBlogResult where
  | redirectLogin
  | renderForm
  | redirectDashboard
deriving Repr, DecidableEq

/-- The `new_blog` route (`src/app.py`, lines 94–104): protected by
`@login_required`; on a valid submission it inserts a `Blog` row whose
`title` and `content` are the form data verbatim, whose `author` is
`current_user`, and whose `date_posted` takes the column default (the
current instant `now`), then commits and redirects to `dashboard`;
otherwise it re-renders the form. -/
def new_blog (db : DB) (current_user : Option Nat) (form : BlogForm)
    (now : Nat) : DB × NewBlogResult :=
  match current_user with
  | none => (db, .redirectLogin)
  | some uid =>
    if form.validate then
      let b : Blog :=
        { id := db.nextBlogId, title := form.title, content := form.content,
          date_posted := now, author_id := uid }
      ({ db with blogs := db.blogs ++ [b], nextBlogId := db.nextBlogId + 1 },
        .redirectDashboard)
    else
      (db, .renderForm)

/-- `Blog.query.get_or_404(blog_id)`: primary-key lookup in the `blog`
table, `none` when no row matches (the route then aborts with 404). -/
def get_or_404 (db : DB) (blog_id : Nat) : Option Blog :=
  db.blogs.find? (fun b => b.id == blog_id)

/-- Outcome of the `blog` detail route: login redirect, a 404-class
response, or the rendered `blog_detail.html` for the found row. -/
inductive BlogDetailResult where
  | redirectLogin
  | notFound
  | detailPage (b : Blog)
deriving Repr, DecidableEq

/-- The `blog` detail route (`src/app.py`, lines 106–110): protected by
`@login_required`; looks the post up by identifier only — the handler
never consults `current_user` beyond the login guard — and renders it, or
404s when the identifier matches no row. -/
def blog (db : DB) (current_user : Option Nat) (blog_id : Nat) :
    BlogDetailResult :=
  match current_user with
  | none => .redirectLogin
  | some _ =>
    match get_or_404 db blog_id with
    | none => .notFound
    | some b => .detailPage b

/-- States reachable from the fresh store by the state-changing operations
of the app: `register` submissions and `new_blog` requests.  (`dashboard`
and the detail route never change the store.)  A `new_blog` request with an
authenticated session carries a `current_user` that `flask_login` loaded
from the `user` table, so the step requires the session's user id to be the
id of a stored account. -/
inductive Reachable : DB → Prop
  | init : Reachable initDB
  | registerStep (db : DB) (f : RegistrationForm) :
      Reachable db → Reachable (register db f).1
  | newBlogStep (db : DB) (cu : Option Nat) (f : BlogForm) (now : Nat)
      (hcu : ∀ uid, cu = some uid → ∃ a ∈ db.users, a.id = uid) :
      Reachable db → Reachable (new_blog db cu f now).1

/-- Structural invariant of reachable stores: fresh autoincrement counters,
pairwise-distinct primary keys, the declared UNIQUE columns pairwise
distinct, the app-specific fact that `fs_uniquifier` is always the
account's email (the `register` route passes `fs_uniquifier=form.email.data`),
and every blog row owned by exactly one stored account. -/
structure StoreInv (db : DB) : Prop where
  userIdLt : ∀ a ∈ db.users, a.id < db.nextUserId
  userIdsDistinct : db.users.Pairwise (fun a b => a.id ≠ b.id)
  emailsDistinct : db.users.Pairwise (fun a b => a.email ≠ b.email)
  uniquifiersDistinct : db.users.Pairwise (fun a b => a.fs_uniquifier ≠ b.fs_uniquifier)
  uniquifierIsEmail : ∀ a ∈ db.users, a.fs_uniquifier = a.email
  blogIdLt : ∀ b ∈ db.blogs, b.id < db.nextBlogId
  blogIdsDistinct : db.blogs.Pairwise (fun a b => a.id ≠ b.id)
  blogOwner : ∀ b ∈ db.blogs, db.users.countP (fun a => a.id == b.author_id) = 1

/-- A list of users with pairwise-distinct ids that contains a user with id
`uid` contains exactly one such user. -/
theorem countP_id_eq_one {l : List User} {uid : Nat}
    (hpw : l.Pairwise (fun a b => a.id ≠ b.id))
    (hmem : ∃ a ∈ l, a.id = uid) :
    l.countP (fun a => a.id == uid) = 1 := by
  induction l with
  | nil => simp at hmem
  | cons x xs ih =>
    rcases List.pairwise_cons.mp hpw with ⟨hx, hxs⟩
    rw [List.countP_cons]
    rcases hmem with ⟨a, ha, hid⟩
    rcases List.mem_cons.mp ha with rfl | hmem2
    · have h0 : xs.countP (fun b => b.id == uid) = 0 := by
        apply List.countP_eq_zero.mpr
        intro b hb
        simp only [beq_iff_eq]
        intro hbid
        exact hx b hb (hid.trans hbid.symm)
      simp [h0, hid]
    · have h1 : xs.countP (fun b => b.id == uid) = 1 := ih hxs ⟨a, hmem2, hid⟩
      have hxne : ¬ x.id = uid := by
        intro hxeq
        exact hx a hmem2 (hxeq.trans hid.symm)
      simp [h1, hxne]

/-- A successful `register`: when the form validates and no stored account
collides with the submitted email (on either UNIQUE column), the commit
succeeds and the route appends exactly the row built by `create_user`. -/
theorem register_success (db : DB) (f : RegistrationForm)
    (hv : f.validate = true)
    (hfresh : ∀ a ∈ db.users, a.email ≠ f.email ∧ a.fs_uniquifier ≠ f.email) :
    register db f =
      ({ db with users := db.users ++ [create_user db f.email f.password f.email],
                 nextUserId := db.nextUserId + 1 }, .redirectDashboard) := by
  have hg : db.users.any
      (fun a => a.email == (create_user db f.email f.password f.email).email
        || a.fs_uniquifier == (create_user db f.email f.password f.email).fs_uniquifier)
      = false := by
    rw [List.any_eq_false]
    intro a ha
    rcases hfresh a ha with ⟨h1, h2⟩
    simp [create_user, h1, h2]
  simp [register, hv, commitUser, hg]

/-- A colliding `register`: when the form validates but some stored account
already uses the submitted email (as email or as uniquifier), the commit
raises `IntegrityError`, the store is unchanged and the outcome is the
unhandled error. -/
theorem register_integrityError (db : DB) (f : RegistrationForm)
    (hv : f.validate = true)
    (hdup : ∃ a ∈ db.users, a.email = f.email ∨ a.fs_uniquifier = f.email) :
    register db f = (db, .integrityError) := by
  have hg : db.users.any
      (fun a => a.email == (create_user db f.email f.password f.email).email
        || a.fs_uniquifier == (create_user db f.email f.password f.email).fs_uniquifier)
      = true := by
    rw [List.any_eq_true]
    rcases hdup with ⟨a, ha, h | h⟩
    · exact ⟨a, ha, by simp [create_user, h]⟩
    · exact ⟨a, ha, by simp [create_user, h]⟩
  simp [register, hv, commitUser, hg]

/-- Every reachable store satisfies the structural invariant. -/
theorem reachable_storeInv (db : DB) (h : Reachable db) : StoreInv db := by
  induction h with
  | init =>
    exact ⟨by simp [initDB], by simp [initDB], by simp [initDB], by simp [initDB],
           by simp [initDB], by simp [initDB], by simp [initDB], by simp [initDB]⟩
  | registerStep db f hr ih =>
    cases hv : f.validate with
    | false => simpa [register, hv] using ih
    | true =>
      by_cases hg : db.users.any
          (fun a => a.email == (create_user db f.email f.password f.email).email
            || a.fs_uniquifier == (create_user db f.email f.password f.email).fs_uniquifier)
          = true
      · have hreg : register db f = (db, .integrityError) := by
          simp [register, hv, commitUser, hg]
        rw [hreg]
        exact ih
      · have hfresh : ∀ a ∈ db.users, a.email ≠ f.email ∧ a.fs_uniquifier ≠ f.email := by
          intro a ha
          rw [List.any_eq_true] at hg
          constructor
          · intro he
            exact hg ⟨a, ha, by simp [create_user, he]⟩
          · intro he
            exact hg ⟨a, ha, by simp [create_user, he]⟩
        have h1 : (register db f).1 =
            { db with users := db.users ++ [create_user db f.email f.password f.email],
                      nextUserId := db.nextUserId + 1 } := by
          rw [register_success db f hv hfresh]
        rw [h1]
        set u := create_user db f.email f.password f.email with hu
        refine ⟨?_, ?_, ?_, ?_, ?_, ?_, ?_, ?_⟩
        · intro a ha
          rcases List.mem_append.mp ha with hm | hm
          · exact Nat.lt_succ_of_lt (ih.userIdLt a hm)
          · rcases List.mem_singleton.mp hm with rfl
            simp [hu, create_user, Nat.lt_succ_self]
        · rw [List.pairwise_append]
          refine ⟨ih.userIdsDistinct, List.pairwise_singleton _ _, ?_⟩
          intro a ha b hb
          rcases List.mem_singleton.mp hb with rfl
          have := ih.userIdLt a ha
          simp only [hu, create_user]
          omega
        · rw [List.pairwise_append]
          refine ⟨ih.emailsDistinct, List.pairwise_singleton _ _, ?_⟩
          intro a ha b hb
          rcases List.mem_singleton.mp hb with rfl
          simpa [hu, create_user] using (hfresh a ha).1
        · rw [List.pairwise_append]
          refine ⟨ih.uniquifiersDistinct, List.pairwise_singleton _ _, ?_⟩
          intro a ha b hb
          rcases List.mem_singleton.mp hb with rfl
          simpa [hu, create_user] using (hfresh a ha).2
        · intro a ha
          rcases List.mem_append.mp ha with hm | hm
          · exact ih.uniquifierIsEmail a hm
          · rcases List.mem_singleton.mp hm with rfl
            simp [hu, create_user]
        · exact ih.blogIdLt
        · exact ih.blogIdsDistinct
        · intro b hb
          rw [List.countP_append]
          have hb1 := ih.blogOwner b hb
          have hpos : 0 < db.users.countP (fun a => a.id == b.author_id) := by
            omega
          rcases List.countP_pos_iff.mp hpos with ⟨a, ha, hpa⟩
          have haid : a.id = b.author_id := by simpa using hpa
          have hne : ¬ u.id = b.author_id := by
            have := ih.userIdLt a ha
            simp only [hu, create_user]
            omega
          simp [List.countP_cons, hne, hb1]
  | newBlogStep db cu f now hcu hr ih =>
    cases cu with
    | none => simpa [new_blog] using ih
    | some uid =>
      cases hv : f.validate with
      | false => simpa [new_blog, hv] using ih
      | true =>
        simp only [new_blog, hv, if_true]
        set b : Blog :=
          { id := db.nextBlogId, title := f.title, content := f.content,
            date_posted := now, author_id := uid } with hbdef
        refine ⟨ih.userIdLt, ih.userIdsDistinct, ih.emailsDistinct,
                ih.uniquifiersDistinct, ih.uniquifierIsEmail, ?_, ?_, ?_⟩
        · intro b2 hb2
          rcases List.mem_append.mp hb2 with h1 | h1
          · exact Nat.lt_succ_of_lt (ih.blogIdLt b2 h1)
          · rcases List.mem_singleton.mp h1 with rfl
            simp [hbdef, Nat.lt_succ_self]
        · rw [List.pairwise_append]
          refine ⟨ih.blogIdsDistinct, List.pairwise_singleton _ _, ?_⟩
          intro b1 hb1 b2 hb2
          rcases List.mem_singleton.mp hb2 with rfl
          have := ih.blogIdLt b1 hb1
          simp only [hbdef]
          omega
        · intro b2 hb2
          rcases List.mem_append.mp hb2 with h1 | h1
          · exact ih.blogOwner b2 h1
          · rcases List.mem_singleton.mp h1 with rfl
            have hmem := hcu uid rfl
            simpa [hbdef] using countP_id_eq_one ih.userIdsDistinct hmem

/-- If a blog list contains no match for the predicate-by-id, looking the
id up in the list extended by further rows only consults the extension. -/
theorem find?_of_none_left {α : Type} {p : α → Bool} {l1 l2 : List α}
    (h : l1.find? p = none) : (l1 ++ l2).find? p = l2.find? p := by
  rw [List.find?_append, h, Option.none_or]

/-- In a list with pairwise-distinct blog ids, two members with the same id
are the same row. -/
theorem blog_eq_of_id_eq {l : List Blog}
    (h : l.Pairwise (fun a b => a.id ≠ b.id))
    {a b : Blog} (ha : a ∈ l) (hb : b ∈ l) (hid : a.id = b.id) : a = b := by
  induction l with
  | nil => simp at ha
  | cons x xs ih =>
    rcases List.pairwise_cons.mp h with ⟨hx, hxs⟩
    rcases List.mem_cons.mp ha with rfl | ha2
    · rcases List.mem_cons.mp hb with rfl | hb2
      · rfl
      · exact absurd hid (hx b hb2)
    · rcases List.mem_cons.mp hb with rfl | hb2
      · exact absurd hid.symm (hx a ha2)
      · exact ih hxs ha2 hb2

/-- Looking up a stored post by its own id on an authenticated request
renders exactly that post, provided blog ids are pairwise distinct. -/
theorem blog_found (db : DB) (uid : Nat) (b : Blog)
    (hpw : db.blogs.Pairwise (fun x y => x.id ≠ y.id)) (hb : b ∈ db.blogs) :
    blog db (some uid) b.id = BlogDetailResult.detailPage b := by
  have hsome : (db.blogs.find? (fun x => x.id == b.id)).isSome := by
    rw [List.find?_isSome]
    exact ⟨b, hb, by simp⟩
  rcases Option.isSome_iff_exists.mp hsome with ⟨b2, hb2⟩
  have hmem2 := List.mem_of_find?_eq_some hb2
  have hid2 : b2.id = b.id := by simpa using List.find?_some hb2
  have : b2 = b := blog_eq_of_id_eq hpw hmem2 hb hid2
  subst this
  simp [blog, get_or_404, hb2]

/-- Concrete registration submission used by the evaluations below. -/
def regAlice : RegistrationForm :=
  { email := "alice@example.com", password := "hunter2",
    confirm_password := "hunter2" }

/-- The store after Alice's registration against a fresh database. -/
def dbAlice : DB := (register initDB regAlice).1

/-- Second concrete registration submission. -/
def regBob : RegistrationForm :=
  { email := "bob@example.com", password := "pw", confirm_password := "pw" }

/-- The store holding Alice and Bob. -/
def dbAliceBob : DB := (register dbAlice regBob).1

/-- Concrete new-post submission. -/
def formHello : BlogForm := { title := "Hello", content := "World" }

/-- The store holding Alice, Bob, and one post by account 1. -/
def dbWithPost : DB := (new_blog dbAliceBob (some 1) formHello 5).1

/-- C1: the claim says the stored password is the bcrypt hash (with the
configured salt) of the submitted password, never the submitted password
itself.  Evaluating `register` on a concrete valid submission shows the
created account's `password` column holds the submitted password verbatim:
the route hands `form.password.data` to `create_user`, which applies no
hashing (hashing in Flask-Security happens only in its own registration
view, which this custom route bypasses). -/
theorem register_stores_submitted_password_verbatim :
    (register initDB regAlice).2 = RegisterResult.redirectDashboard ∧
    (register initDB regAlice).1.users.map (fun a => a.password)
      = ["hunter2"] := by
  exact ⟨rfl, rfl⟩

/-- C2 counterexample: submitting a validated registration whose email is
already Alice's leaves the store unchanged, but the outcome is the
unhandled `IntegrityError` escaping the commit — not the registration form
re-rendered with a failure, contradicting the claim that the failure is
surfaced to the form rather than an unhandled error. -/
theorem register_duplicate_email_unhandled :
    (register dbAlice
        { email := "alice@example.com", password := "pw2",
          confirm_password := "pw2" }).2 = RegisterResult.integrityError ∧
    (register dbAlice
        { email := "alice@example.com", password := "pw2",
          confirm_password := "pw2" }).2 ≠ RegisterResult.renderForm ∧
    (register dbAlice
        { email := "alice@example.com", password := "pw2",
          confirm_password := "pw2" }).1 = dbAlice := by
  exact ⟨rfl, by decide, rfl⟩

/-- C2 amended: a validated registration whose email equals an existing
account's email is rejected and creates no account — the store is
unchanged — but the uniqueness violation propagates out of the handler as
an unhandled database error, not as a failure surfaced to the registration
form. -/
theorem register_duplicate_email_rejected (db : DB) (f : RegistrationForm)
    (hv : f.validate = true)
    (hdup : ∃ a ∈ db.users, a.email = f.email) :
    (register db f).1 = db ∧
    (register db f).2 = RegisterResult.integrityError := by
  have hd2 : ∃ a ∈ db.users, a.email = f.email ∨ a.fs_uniquifier = f.email := by
    rcases hdup with ⟨a, ha, h⟩
    exact ⟨a, ha, Or.inl h⟩
  rw [register_integrityError db f hv hd2]
  exact ⟨rfl, rfl⟩

/-- Concrete instantiation of `register_duplicate_email_rejected`. -/
theorem register_duplicate_email_rejected_witness :
    ({ email := "alice@example.com", password := "pw2",
       confirm_password := "pw2" } : RegistrationForm).validate = true ∧
    (∃ a ∈ dbAlice.users, a.email = "alice@example.com") ∧
    ((register dbAlice
        { email := "alice@example.com", password := "pw2",
          confirm_password := "pw2" }).1 = dbAlice ∧
      (register dbAlice
        { email := "alice@example.com", password := "pw2",
          confirm_password := "pw2" }).2 = RegisterResult.integrityError) :=
  ⟨by decide, by decide,
    register_duplicate_email_rejected dbAlice _ (by decide) (by decide)⟩

/-- C3: in any reachable store, a validated registration with an email used
by no existing account succeeds, creates exactly one new account (the store
gains a single appended row), and that row's `fs_uniquifier` is distinct
from every existing account's `fs_uniquifier` — the fresh email is copied
into the uniquifier column, and in reachable stores every stored uniquifier
equals its account's email. -/
theorem register_new_email_fresh_uniquifier (db : DB) (f : RegistrationForm)
    (hr : Reachable db) (hv : f.validate = true)
    (hnew : ∀ a ∈ db.users, a.email ≠ f.email) :
    (register db f).2 = RegisterResult.redirectDashboard ∧
    ∃ u : User, (register db f).1.users = db.users ++ [u] ∧
      u.email = f.email ∧
      ∀ a ∈ db.users, a.fs_uniquifier ≠ u.fs_uniquifier := by
  have hinv := reachable_storeInv db hr
  have hfresh : ∀ a ∈ db.users, a.email ≠ f.email ∧ a.fs_uniquifier ≠ f.email := by
    intro a ha
    refine ⟨hnew a ha, ?_⟩
    rw [hinv.uniquifierIsEmail a ha]
    exact hnew a ha
  rw [register_success db f hv hfresh]
  refine ⟨rfl, create_user db f.email f.password f.email, rfl, rfl, ?_⟩
  intro a ha
  simpa [create_user] using (hfresh a ha).2

/-- Concrete instantiation of `register_new_email_fresh_uniquifier`:
registering Bob against the store already holding Alice. -/
theorem register_new_email_fresh_uniquifier_witness :
    regBob.validate = true ∧
    (∀ a ∈ dbAlice.users, a.email ≠ regBob.email) ∧
    ((register dbAlice regBob).2 = RegisterResult.redirectDashboard ∧
      ∃ u : User, (register dbAlice regBob).1.users = dbAlice.users ++ [u] ∧
        u.email = regBob.email ∧
        ∀ a ∈ dbAlice.users, a.fs_uniquifier ≠ u.fs_uniquifier) :=
  ⟨by decide, by decide,
    register_new_email_fresh_uniquifier dbAlice regBob
      (Reachable.registerStep initDB regAlice Reachable.init)
      (by decide) (by decide)⟩

/-- C4: for an authenticated request to the new-post route over a reachable
store, a valid submission (non-empty title and content) inserts exactly one
post — the blog table gains a single appended row — owned by the current
account, the response redirects to the dashboard listing, and the new post
is retrievable via its detail route; an invalid submission inserts nothing
and re-renders the form. -/
theorem new_blog_insert_and_detail (db : DB) (uid : Nat) (f : BlogForm)
    (now : Nat) (hr : Reachable db) :
    (f.validate = true →
      (new_blog db (some uid) f now).2 = NewBlogResult.redirectDashboard ∧
      ∃ b : Blog, (new_blog db (some uid) f now).1.blogs = db.blogs ++ [b] ∧
        b.author_id = uid ∧ b.title = f.title ∧ b.content = f.content ∧
        blog (new_blog db (some uid) f now).1 (some uid) b.id
          = BlogDetailResult.detailPage b) ∧
    (f.validate = false →
      (new_blog db (some uid) f now).2 = NewBlogResult.renderForm ∧
      (new_blog db (some uid) f now).1 = db) := by
  constructor
  · intro hv
    have hinv := reachable_storeInv db hr
    set bnew : Blog :=
      { id := db.nextBlogId, title := f.title, content := f.content,
        date_posted := now, author_id := uid } with hbnew
    have hstep : new_blog db (some uid) f now =
        ({ db with blogs := db.blogs ++ [bnew],
                   nextBlogId := db.nextBlogId + 1 },
          NewBlogResult.redirectDashboard) := by
      simp [new_blog, hv, hbnew]
    rw [hstep]
    refine ⟨rfl, bnew, rfl, rfl, rfl, rfl, ?_⟩
    apply blog_found
    · rw [List.pairwise_append]
      refine ⟨hinv.blogIdsDistinct, List.pairwise_singleton _ _, ?_⟩
      intro x hx y hy
      rcases List.mem_singleton.mp hy with rfl
      have := hinv.blogIdLt x hx
      simp only [hbnew]
      omega
    · exact List.mem_append_right _ (List.mem_singleton.mpr rfl)
  · intro hv
    simp [new_blog, hv]

/-- Concrete instantiation of `new_blog_insert_and_detail`: account 1
posting "Hello"/"World" over the store holding Alice and Bob. -/
theorem new_blog_insert_and_detail_witness :
    (formHello.validate = true →
      (new_blog dbAliceBob (some 1) formHello 5).2
          = NewBlogResult.redirectDashboard ∧
      ∃ b : Blog,
        (new_blog dbAliceBob (some 1) formHello 5).1.blogs
            = dbAliceBob.blogs ++ [b] ∧
        b.author_id = 1 ∧ b.title = formHello.title ∧
        b.content = formHello.content ∧
        blog (new_blog dbAliceBob (some 1) formHello 5).1 (some 1) b.id
          = BlogDetailResult.detailPage b) ∧
    (formHello.validate = false →
      (new_blog dbAliceBob (some 1) formHello 5).2
          = NewBlogResult.renderForm ∧
      (new_blog dbAliceBob (some 1) formHello 5).1 = dbAliceBob) :=
  new_blog_insert_and_detail dbAliceBob 1 formHello 5
    (Reachable.registerStep dbAlice regBob
      (Reachable.registerStep initDB regAlice Reachable.init))

/-- C5: for an authenticated request to the detail route over a reachable
store, an identifier matching no stored post yields the 404-class outcome,
and an identifier matching a stored post yields that post's detail page. -/
theorem blog_detail_found_or_404 (db : DB) (uid bid : Nat)
    (hr : Reachable db) :
    ((∀ b ∈ db.blogs, b.id ≠ bid) →
      blog db (some uid) bid = BlogDetailResult.notFound) ∧
    (∀ b ∈ db.blogs, b.id = bid →
      blog db (some uid) bid = BlogDetailResult.detailPage b) := by
  constructor
  · intro hmiss
    have hnone : db.blogs.find? (fun b => b.id == bid) = none := by
      rw [List.find?_eq_none]
      intro b hb
      simpa using hmiss b hb
    simp [blog, get_or_404, hnone]
  · intro b hb hid
    subst hid
    exact blog_found db uid b (reachable_storeInv db hr).blogIdsDistinct hb

/-- Concrete instantiation of `blog_detail_found_or_404`: over the store
with one post (id 1), id 99 is 404 and id 1 renders the post. -/
theorem blog_detail_found_or_404_witness :
    ((∀ b ∈ dbWithPost.blogs, b.id ≠ 99) →
      blog dbWithPost (some 1) 99 = BlogDetailResult.notFound) ∧
    (∀ b ∈ dbWithPost.blogs, b.id = 99 →
      blog dbWithPost (some 1) 99 = BlogDetailResult.detailPage b) :=
  blog_detail_found_or_404 dbWithPost 1 99
    (Reachable.newBlogStep dbAliceBob (some 1) formHello 5
      (by intro uid h; injection h with h2; subst h2; decide)
      (Reachable.registerStep dbAlice regBob
        (Reachable.registerStep initDB regAlice Reachable.init)))

/-- C6: an unauthenticated request to the new-post route or the dashboard
route is answered with the login redirect and leaves the entire store —
accounts, roles, posts — unchanged; in particular no post is created. -/
theorem unauthenticated_requests_redirect (db : DB) (f : BlogForm)
    (now : Nat) :
    new_blog db none f now = (db, NewBlogResult.redirectLogin) ∧
    dashboard db none = (db, DashboardResult.redirectLogin) :=
  ⟨rfl, rfl⟩

/-- C7: a registration submission whose password and confirmation differ
fails form validation, so the route re-renders the form and the store —
in particular the set of accounts — is unchanged. -/
theorem register_password_mismatch_rejected (db : DB)
    (f : RegistrationForm) (hne : f.password ≠ f.confirm_password) :
    f.validate = false ∧ register db f = (db, RegisterResult.renderForm) := by
  have hb : (f.confirm_password == f.password) = false :=
    beq_eq_false_iff_ne.mpr (fun h => hne h.symm)
  have hv : f.validate = false := by
    simp [RegistrationForm.validate, hb]
  exact ⟨hv, by simp [register, hv]⟩

/-- Concrete instantiation of `register_password_mismatch_rejected`. -/
theorem register_password_mismatch_rejected_witness :
    ({ email := "carol@example.com", password := "pw1",
       confirm_password := "pw2" } : RegistrationForm).password ≠
      ({ email := "carol@example.com", password := "pw1",
         confirm_password := "pw2" } : RegistrationForm).confirm_password ∧
    (({ email := "carol@example.com", password := "pw1",
        confirm_password := "pw2" } : RegistrationForm).validate = false ∧
      register dbAlice
          { email := "carol@example.com", password := "pw1",
            confirm_password := "pw2" }
        = (dbAlice, RegisterResult.renderForm)) :=
  ⟨by decide,
    register_password_mismatch_rejected dbAlice _ (by decide)⟩

/-- A 101-character title, one over the declared `String(100)` bound. -/
def longTitle : String := String.mk (List.replicate 101 'a')

/-- C8 counterexample: the new-post form applies only `DataRequired` to the
title, and the default SQLite store does not enforce the declared
`String(100)` length, so a submission with a 101-character title passes
validation and is inserted as-is: the resulting store holds a post whose
title is longer than 100 characters. -/
theorem new_blog_accepts_overlong_title :
    (BlogForm.mk longTitle "World").validate = true ∧
    (new_blog dbAlice (some 1) (BlogForm.mk longTitle "World") 0).2
        = NewBlogResult.redirectDashboard ∧
    ∃ b ∈ (new_blog dbAlice (some 1) (BlogForm.mk longTitle "World") 0).1.blogs,
      b.title = longTitle ∧ 100 < b.title.length := by
  refine ⟨by decide, rfl, ?_⟩
  exact ⟨{ id := 1, title := longTitle, content := "World",
           date_posted := 0, author_id := 1 },
         by decide, rfl, by decide⟩

/-- C8 amended: the title column declares a 100-character bound, but
nothing enforces it — the form validates only presence, and the inserted
row carries the submitted title verbatim whatever its length; every
validated submission inserts exactly one post with that title. -/
theorem new_blog_title_stored_verbatim (db : DB) (uid now : Nat)
    (f : BlogForm) (hv : f.validate = true) :
    ∃ b : Blog, (new_blog db (some uid) f now).1.blogs = db.blogs ++ [b] ∧
      b.title = f.title := by
  refine ⟨{ id := db.nextBlogId, title := f.title, content := f.content,
            date_posted := now, author_id := uid }, ?_, rfl⟩
  simp [new_blog, hv]

/-- Concrete instantiation of `new_blog_title_stored_verbatim` at the
101-character title. -/
theorem new_blog_title_stored_verbatim_witness :
    (BlogForm.mk longTitle "World").validate = true ∧
    ∃ b : Blog,
      (new_blog dbAlice (some 1) (BlogForm.mk longTitle "World") 0).1.blogs
          = dbAlice.blogs ++ [b] ∧
      b.title = (BlogForm.mk longTitle "World").title :=
  ⟨by decide, new_blog_title_stored_verbatim dbAlice 1 0 _ (by decide)⟩

/-- C9: in every store reachable by the operations (register, create post),
every post is owned by exactly one stored account, and the accounts'
emails and stable session identifiers are each pairwise distinct; the
operations preserve this invariant (proved by induction over
`Reachable`).  An owning account exists already when its post is created:
the `new_blog` step only fires with a `current_user` loaded from the user
table, and accounts are never deleted. -/
theorem reachable_data_invariants (db : DB) (hr : Reachable db) :
    (∀ b ∈ db.blogs, db.users.countP (fun a => a.id == b.author_id) = 1) ∧
    db.users.Pairwise (fun a b => a.email ≠ b.email) ∧
    db.users.Pairwise (fun a b => a.fs_uniquifier ≠ b.fs_uniquifier) := by
  have h := reachable_storeInv db hr
  exact ⟨h.blogOwner, h.emailsDistinct, h.uniquifiersDistinct⟩

/-- Concrete instantiation of `reachable_data_invariants` on the store with
two accounts and one post. -/
theorem reachable_data_invariants_witness :
    (∀ b ∈ dbWithPost.blogs,
      dbWithPost.users.countP (fun a => a.id == b.author_id) = 1) ∧
    dbWithPost.users.Pairwise (fun a b => a.email ≠ b.email) ∧
    dbWithPost.users.Pairwise (fun a b => a.fs_uniquifier ≠ b.fs_uniquifier) :=
  reachable_data_invariants dbWithPost
    (Reachable.newBlogStep dbAliceBob (some 1) formHello 5
      (by intro uid h; injection h with h2; subst h2; decide)
      (Reachable.registerStep dbAlice regBob
        (Reachable.registerStep initDB regAlice Reachable.init)))

/-- C10: the detail route performs no ownership check — it looks the post
up by identifier only.  Over a reachable store, any stored post is
returned to any authenticated account, and two different authenticated
accounts always receive the same outcome for the same identifier. -/
theorem blog_detail_no_ownership_check (db : DB) (u1 u2 : Nat) (b : Blog)
    (hr : Reachable db) (hb : b ∈ db.blogs) :
    blog db (some u1) b.id = BlogDetailResult.detailPage b ∧
    blog db (some u1) b.id = blog db (some u2) b.id := by
  refine ⟨blog_found db u1 b (reachable_storeInv db hr).blogIdsDistinct hb, rfl⟩

/-- Concrete instantiation of `blog_detail_no_ownership_check`: account 2
(not the owner, which is account 1) retrieves post 1. -/
theorem blog_detail_no_ownership_check_witness :
    ∃ b ∈ dbWithPost.blogs,
      b.author_id = 1 ∧
      blog dbWithPost (some 2) b.id = BlogDetailResult.detailPage b ∧
      blog dbWithPost (some 2) b.id = blog dbWithPost (some 1) b.id := by
  refine ⟨{ id := 1, title := "Hello", content := "World",
            date_posted := 5, author_id := 1 }, by decide, by decide, ?_⟩
  exact blog_detail_no_ownership_check dbWithPost 2 1
    { id := 1, title := "Hello", content := "World",
      date_posted := 5, author_id := 1 }
    (Reachable.newBlogStep dbAliceBob (some 1) formHello 5
      (by intro uid h; injection h with h2; subst h2; decide)
      (Reachable.registerStep dbAlice regBob
        (Reachable.registerStep initDB regAlice Reachable.init)))
    (by decide)
